import Mathlib

/- Verification of the ReadMeLocal content pipeline and playback synchronizer.

   Python strings are modelled as lists of characters (`PyStr`), and Python
   floats as exact rationals (ℚ); the arithmetic in the functions under study
   (duration estimation, position lookup, adaptive speed) is modelled exactly.
   Whitespace and word characters are modelled over their ASCII ranges, which
   covers every string manipulated by the claims. -/

abbrev PyStr := List Char

/-- ASCII whitespace, as recognised by Python `str.strip` / `str.split` / `\s`. -/
def isSpace (c : Char) : Bool :=
  c == ' ' || c == '\t' || c == '\n' || c == '\r' || c == '\x0b' || c == '\x0c'

/-- Line-boundary characters of Python `str.splitlines`. -/
def isLineBreakChar (c : Char) : Bool :=
  c == '\n' || c == '\r' || c == '\x0b' || c == '\x0c' ||
  c == '\x1c' || c == '\x1d' || c == '\x1e' || c == '\x85' ||
  c.toNat == 0x2028 || c.toNat == 0x2029

/-- Python `str.strip()`: drop leading and trailing whitespace. -/
def pyStrip (s : PyStr) : PyStr :=
  ((s.dropWhile isSpace).reverse.dropWhile isSpace).reverse

/-- Python `str.lower()` (ASCII case folding). -/
def pyLower (s : PyStr) : PyStr := s.map Char.toLower

/-- Helper for `wordCount`: `inWord` records whether the previous character was
    part of a word. -/
def wordCountAux (inWord : Bool) : PyStr → Nat
  | [] => 0
  | c :: rest =>
      if isSpace c then wordCountAux false rest
      else (if inWord then 0 else 1) + wordCountAux true rest

/-- Number of whitespace-delimited tokens, i.e. Python `len(s.split())`. -/
def wordCount (s : PyStr) : Nat := wordCountAux false s

/-- Helper for `pySplitlines`; `acc` holds the current line reversed, and a
    `"\r\n"` pair counts as a single boundary. -/
def splitlinesAux (acc : List Char) : List Char → List PyStr
  | [] => [acc.reverse]
  | [c] => if isLineBreakChar c then [acc.reverse] else [(c :: acc).reverse]
  | c :: d :: rs =>
      if isLineBreakChar c then
        if c == '\r' && d == '\n' then
          if rs.isEmpty then [acc.reverse] else acc.reverse :: splitlinesAux [] rs
        else acc.reverse :: splitlinesAux [] (d :: rs)
      else splitlinesAux (c :: acc) (d :: rs)

/-- Python `str.splitlines()`. -/
def pySplitlines (s : PyStr) : List PyStr :=
  if s.isEmpty then [] else splitlinesAux [] s

/-- Python `"\n".join(lines)`. -/
def joinLines (lines : List PyStr) : PyStr := List.intercalate ['\n'] lines

/-- Helper for `collapseWs`: collapse every whitespace run to a single space,
    Python `re.sub(r"\s+", " ", s)`. `prevSpace` records whether the previous
    character was whitespace. -/
def collapseWsAux (prevSpace : Bool) : PyStr → PyStr
  | [] => []
  | c :: rest =>
      if isSpace c then
        if prevSpace then collapseWsAux true rest
        else ' ' :: collapseWsAux true rest
      else c :: collapseWsAux false rest

/-- Python `re.sub(r"\s+", " ", s)`. -/
def collapseWs (s : PyStr) : PyStr := collapseWsAux false s

/-- Normalisation used both by `ContentFilter._remove_repeated_lines` and by
    the PDF block filter: `re.sub(r"\s+", " ", s.strip().lower())`. -/
def pyNormalize (s : PyStr) : PyStr := collapseWs (pyLower (pyStrip s))

/- ------------------------------------------------------------------
   backend/main.py : sentence splitting and playback synchronisation
   ------------------------------------------------------------------ -/

/-- Sentence terminators of `SENTENCE_SPLIT_REGEX = (?<=[.!?。！？])\s+`. -/
def isSentTerm (c : Char) : Bool :=
  c == '.' || c == '!' || c == '?' || c == '。' || c == '！' || c == '？'

/-- Whether the character written last into the accumulator is a terminator
    (the lookbehind of the split regex). -/
def headIsTerm : List Char → Bool
  | [] => false
  | p :: _ => isSentTerm p

/-- Model of `re.split(r"(?<=[.!?。！？])\s+", text)`: a split happens at each
    whitespace character directly preceded by a terminator, consuming the whole
    whitespace run (`skipping` is true while inside a consumed run). `acc` holds
    the current piece reversed. -/
def sentSplitAux (skipping : Bool) (acc : List Char) : List Char → List PyStr
  | [] => [acc.reverse]
  | c :: rest =>
      if skipping && isSpace c then sentSplitAux true [] rest
      else if isSpace c && headIsTerm acc then acc.reverse :: sentSplitAux true [] rest
      else sentSplitAux false (c :: acc) rest

/-- `main._split_sentences`: strip; empty input gives `[]`; split on the regex;
    if at most one piece results, fall back to the non-blank stripped physical
    lines; finally strip every piece and drop empty ones. -/
def _split_sentences (text : PyStr) : List PyStr :=
  let t := pyStrip text
  if t.isEmpty then []
  else
    let parts := sentSplitAux false [] t
    let parts :=
      if parts.length ≤ 1 then ((pySplitlines t).map pyStrip).filter (fun p => !p.isEmpty)
      else parts
    (parts.map pyStrip).filter (fun p => !p.isEmpty)

/-- `main._calculate_sentence_durations`: per sentence,
    `(word_count / 150) * 60 / speed` if the word count is positive else `1.0`,
    then `max(duration, 0.5)`. -/
def _calculate_sentence_durations (sentences : List PyStr) (speed : ℚ) : List ℚ :=
  sentences.map (fun s =>
    max (if 0 < wordCount s then ((wordCount s : ℚ) / 150) * 60 / speed else 1) (1 / 2))

/-- The scan loop of `main._get_sentence_at_position`: first index `i` with
    `pos < cumulative + durations[i]`, else `none`. -/
def sentenceSearchAux : List ℚ → ℚ → ℚ → Nat → Option Nat
  | [], _, _, _ => none
  | d :: rest, pos, cum, i =>
      if pos < cum + d then some i else sentenceSearchAux rest pos (cum + d) (i + 1)

/-- `main._get_sentence_at_position`: walk the duration table; on fall-through
    return `len(sentences) - 1`. -/
def _get_sentence_at_position (sentences : List PyStr) (durations : List ℚ) (pos : ℚ) : Int :=
  match sentenceSearchAux durations pos 0 0 with
  | some i => (i : Int)
  | none => (sentences.length : Int) - 1

/-- Playback configuration defaults of `main.py` (`settings.yaml` absent). -/
def START_SPEED : ℚ := 3 / 2

def SPEED_INCREMENT : ℚ := 1 / 10

def INCREMENT_INTERVAL_MIN : Int := 15

def MAX_SPEED : ℚ := 5 / 2

/-- `main._compute_adaptive_speed`, parametrised by the configuration values it
    reads; `now`/`session_start` are timestamps in seconds.  `int(elapsed //
    max(1, interval))` is `⌊elapsed / max 1 interval⌋` since `elapsed ≥ 0`.
    The Python `try/except` cannot fire in this exact-arithmetic model. -/
def _compute_adaptive_speed (start_speed increment : ℚ) (interval_minutes : Int)
    (max_speed : ℚ) (now session_start : ℚ) : ℚ :=
  let elapsed : ℚ := max 0 ((now - session_start) / 60)
  let increments : Int := ⌊elapsed / ((max 1 interval_minutes : Int) : ℚ)⌋
  let speed : ℚ := start_speed + (increments : ℚ) * increment
  let speed := if max_speed < speed then max_speed else speed
  if speed < 1 / 2 then 1 / 2 else speed

/-- The formula exactly as the specification words it (clamping written
    `min(max_speed, max(0.5, ·))`), for comparison with the source order. -/
def adaptive_speed_spec_formula (start_speed increment : ℚ) (interval_minutes : Int)
    (max_speed : ℚ) (now session_start : ℚ) : ℚ :=
  min max_speed (max (1 / 2)
    (start_speed +
      ((⌊(max 0 ((now - session_start) / 60)) / ((max 1 interval_minutes : Int) : ℚ)⌋ : ℚ) *
        increment)))

/-- The rows of `playback_state` that the claims speak about (`last_updated`,
    a pure timestamp, is omitted). -/
structure PlaybackState where
  position_seconds : ℚ
  speed : ℚ
  session_start : ℚ
  current_sentence_index : Int
  sentence_durations : List ℚ
deriving DecidableEq

/-- `POST /api/playback/update`: each field independently optional; position is
    clamped at 0 below, speed to the hardcoded interval `[0.5, 3.0]`. -/
def update_playback (ps : PlaybackState) (posReq spdReq : Option ℚ) : PlaybackState :=
  let ps1 := match posReq with
    | some p => { ps with position_seconds := max 0 p }
    | none => ps
  match spdReq with
  | some s => { ps1 with speed := max (1 / 2) (min 3 s) }
  | none => ps1

/-- `GET /api/playback/speed`: persists the adaptive speed. -/
def get_playback_speed_op (ps : PlaybackState) (now : ℚ) : PlaybackState :=
  { ps with speed := (_compute_adaptive_speed START_SPEED SPEED_INCREMENT
      INCREMENT_INTERVAL_MIN MAX_SPEED now ps.session_start) }

/-- `main._upsert_current_book`: book import resets the playback state and
    stores freshly computed durations. -/
def upsert_current_book (sentences : List PyStr) (now : ℚ) : PlaybackState :=
  { position_seconds := 0,
    speed := START_SPEED,
    session_start := now,
    current_sentence_index := 0,
    sentence_durations := _calculate_sentence_durations sentences START_SPEED }

/-- `POST /api/book/close`: resets position, speed and session start. -/
def close_current_book (ps : PlaybackState) (now : ℚ) : PlaybackState :=
  { ps with position_seconds := 0, speed := START_SPEED, session_start := now }

/- ------------------------------------------------------------------
   backend/rsvp_tokens.py : RSVP token stream
   ------------------------------------------------------------------ -/

/-- The regex class `[A-Za-z0-9]`. -/
def isAlnum (c : Char) : Bool :=
  ('A' ≤ c && c ≤ 'Z') || ('a' ≤ c && c ≤ 'z') || ('0' ≤ c && c ≤ '9')

/-- The apostrophe character (written by code point). -/
def apos : Char := Char.ofNat 39

/-- The punctuation class `[.,;:!?]` / the `PUNCTUATION` set. -/
def isPunctChar (c : Char) : Bool :=
  c == ',' || c == ';' || c == ':' || c == '.' || c == '!' || c == '?'

/-- `Token` as produced by `tokenize_paragraphs` (Python dict with fixed keys). -/
structure Token where
  text : PyStr
  punct : PyStr
  sentence_end : Bool
  paragraph_index : Nat
deriving DecidableEq, Inhabited

/-- Fuelled scan of `re.findall(r"[A-Za-z0-9]+(?:['-][A-Za-z0-9]+)?|[.,;:!?]", s)`:
    maximal alphanumeric run, optionally extended once by an interior apostrophe
    or hyphen followed by another run; otherwise a single punctuation character;
    other characters are skipped.  Fuel `s.length` always suffices since every
    step consumes at least one character. -/
def findallAux : Nat → List Char → List PyStr
  | 0, _ => []
  | _, [] => []
  | fuel + 1, c :: rest =>
      if isAlnum c then
        let r1 := c :: rest.takeWhile isAlnum
        let rest1 := rest.dropWhile isAlnum
        match rest1 with
        | sep :: c2 :: rest2 =>
            if (sep == apos || sep == '-') && isAlnum c2 then
              (r1 ++ sep :: c2 :: rest2.takeWhile isAlnum) ::
                findallAux fuel (rest2.dropWhile isAlnum)
            else r1 :: findallAux fuel rest1
        | _ => r1 :: findallAux fuel rest1
      else if isPunctChar c then [c] :: findallAux fuel rest
      else findallAux fuel rest

/-- `word_re.findall(paragraph)`. -/
def findall (s : PyStr) : List PyStr := findallAux s.length s

/-- Whether a match is one of the `PUNCTUATION` strings (always length 1). -/
def isPunctMatch (m : PyStr) : Bool :=
  match m with
  | [c] => isPunctChar c
  | _ => false

/-- Whether a punctuation match is a sentence-ending one (`.`, `!`, `?`). -/
def isEndMatch (m : PyStr) : Bool :=
  match m with
  | [c] => c == '.' || c == '!' || c == '?'
  | _ => false

/-- Mutation of the trailing token: `tokens[-1]["punct"] = match` and, for
    `.`/`!`/`?`, `tokens[-1]["sentence_end"] = True`. -/
def setTrailingPunct (tokens : List Token) (m : PyStr) : List Token :=
  match tokens.getLast? with
  | none => tokens
  | some t =>
      tokens.dropLast ++
        [if isEndMatch m then { t with punct := m, sentence_end := true }
         else { t with punct := m }]

/-- One iteration of the `for match in word_re.findall(paragraph)` loop. -/
def applyMatch (tokens : List Token) (m : PyStr) (pidx : Nat) : List Token :=
  if isPunctMatch m && !tokens.isEmpty then setTrailingPunct tokens m
  else tokens ++ [{ text := m, punct := [], sentence_end := false, paragraph_index := pidx }]

/-- `rsvp_tokens.tokenize_paragraphs`. -/
def tokenize_paragraphs (paragraphs : List PyStr) : List Token :=
  paragraphs.enum.foldl
    (fun tokens pair => (findall pair.2).foldl (fun ts m => applyMatch ts m pair.1) tokens)
    []

/- ------------------------------------------------------------------
   backend/content_filter.py : ContentFilter
   ------------------------------------------------------------------ -/

/-- Configuration of `ContentFilter.__init__` with its defaults (the
    `settings.yaml` file is absent from the repository). -/
structure ContentFilter where
  skip_frontmatter : Bool := true
  skip_page_numbers : Bool := true
  skip_footnotes : Bool := true
  skip_headers_footers : Bool := true
  frontmatter_skip_percent : ℚ := 5 / 100
  repeat_threshold : Nat := 3

def defaultContentFilter : ContentFilter := {}

/-- If `pat` is an initial run of `l`, the remainder after it. -/
def leadsWith : List Char → List Char → Option (List Char)
  | [], l => some l
  | _ :: _, [] => none
  | p :: ps, c :: cs => if p == c then leadsWith ps cs else none

/-- The regex class `[0-9ivxlcdm]` (after case folding). -/
def isNumClassChar (c : Char) : Bool :=
  ('0' ≤ c && c ≤ '9') || c == 'i' || c == 'v' || c == 'x' || c == 'l' ||
  c == 'c' || c == 'd' || c == 'm'

/-- Regex word character `\w` (ASCII). -/
def isWordChar (c : Char) : Bool := isAlnum c || c == '_'

/-- Match of `[0-9ivxlcdm]+\b` at the start of `l`: a nonempty class run whose
    maximal extent is not followed by a word character (backtracking inside the
    run can never make `\b` succeed between two word characters). -/
def numTailMatch (l : List Char) : Bool :=
  match l with
  | [] => false
  | c :: _ =>
      isNumClassChar c &&
        (match l.dropWhile isNumClassChar with
         | [] => true
         | d :: _ => !isWordChar d)

/-- Match of `\s+[0-9ivxlcdm]+\b` at the start of `l`. -/
def afterSpacesNum (l : List Char) : Bool :=
  match l with
  | [] => false
  | c :: rest => isSpace c && numTailMatch (rest.dropWhile isSpace)

/-- `ContentFilter.CHAPTER_REGEX` applied with `.search`: the regex is anchored
    by `^` (no MULTILINE), so this is a match at the start of the line of
    `\s*(chapter\s+[0-9ivxlcdm]+\b|prologue\b|part\s+[0-9ivxlcdm]+\b|book\s+[0-9ivxlcdm]+\b)`
    case-insensitively. -/
def chapterMatch (line : PyStr) : Bool :=
  let r := pyLower (line.dropWhile isSpace)
  (match leadsWith (("chapter").toList) r with
   | some rest => afterSpacesNum rest
   | none => false) ||
  (match leadsWith (("prologue").toList) r with
   | some rest => (match rest with | [] => true | d :: _ => !isWordChar d)
   | none => false) ||
  (match leadsWith (("part").toList) r with
   | some rest => afterSpacesNum rest
   | none => false) ||
  (match leadsWith (("book").toList) r with
   | some rest => afterSpacesNum rest
   | none => false)

/-- Position of the first chapter-marker line, counting from `start`. -/
def findIdxAux (p : PyStr → Bool) : List PyStr → Nat → Option Nat
  | [], _ => none
  | ln :: rest, i => if p ln then some i else findIdxAux p rest (i + 1)

/-- `ContentFilter._find_content_start`: scan only the first 1000 lines. -/
def find_content_start (lines : List PyStr) : Option Nat :=
  findIdxAux chapterMatch (lines.take 1000) 0

/-- Maximal `\d+` at the start of `l`; remainder on success. -/
def digitsThen (l : List Char) : Option (List Char) :=
  match l with
  | [] => none
  | c :: _ => if c.isDigit then some (l.dropWhile Char.isDigit) else none

/-- `ContentFilter.PAGE_NUMBER_REGEX`
    (`^\s*(page\s+\d+\s*(of\s*\d+)?|\d+)\s*$`, case-insensitive) as a full
    anchored match. -/
def pageNumberMatch (s : PyStr) : Bool :=
  let r := pyLower (s.dropWhile isSpace)
  let alt1 : Bool :=
    match leadsWith (("page").toList) r with
    | some (c :: rest2) =>
        if isSpace c then
          match digitsThen (rest2.dropWhile isSpace) with
          | some rest3 =>
              let rest4 := rest3.dropWhile isSpace
              (match leadsWith (("of").toList) rest4 with
               | some rest5 =>
                   (match digitsThen (rest5.dropWhile isSpace) with
                    | some rest6 => (rest6.dropWhile isSpace).isEmpty
                    | none => false)
               | none => rest4.isEmpty)
          | none => false
        else false
    | _ => false
  let alt2 : Bool :=
    match digitsThen r with
    | some rest => (rest.dropWhile isSpace).isEmpty
    | none => false
  alt1 || alt2

/-- Lowercase roman-numeral character class `[ivxlcdm]` (these two footnote
    regexes carry no IGNORECASE flag). -/
def romanLowerChar (c : Char) : Bool :=
  c == 'i' || c == 'v' || c == 'x' || c == 'l' || c == 'c' || c == 'd' || c == 'm'

/-- Match of `\[(\d+|[ivxlcdm]+)\]` at the start of `l`; remainder after the
    closing bracket on success. -/
def bracketMarker (l : List Char) : Option (List Char) :=
  match l with
  | '[' :: rest =>
      (match digitsThen rest with
       | some (']' :: r3) => some r3
       | some _ => none
       | none =>
           match rest with
           | c :: _ =>
               if romanLowerChar c then
                 (match rest.dropWhile romanLowerChar with
                  | ']' :: r3 => some r3
                  | _ => none)
               else none
           | [] => none)
  | _ => none

/-- `ContentFilter.FOOTNOTE_LINE_REGEX` (`^\s*(\[(\d+|[ivxlcdm]+)\]|\d+[\.)])\s+`)
    as an anchored match. -/
def footnoteLineMatch (s : PyStr) : Bool :=
  let r := s.dropWhile isSpace
  let afterMarker : Option (List Char) :=
    match bracketMarker r with
    | some rest => some rest
    | none =>
        match digitsThen r with
        | some (c :: rest2) => if c == '.' || c == ')' then some rest2 else none
        | _ => none
  match afterMarker with
  | some (c :: _) => isSpace c
  | _ => false

/-- Fuelled model of `INLINE_FOOTNOTE_REGEX.sub("", joined)`: delete each
    non-overlapping bracketed marker, scanning left to right.  A marker takes
    at least three characters, so fuel `s.length` suffices. -/
def inlineSubAux : Nat → List Char → List Char
  | 0, s => s
  | _, [] => []
  | fuel + 1, c :: rest =>
      if c == '[' then
        match bracketMarker (c :: rest) with
        | some rest2 => inlineSubAux fuel rest2
        | none => c :: inlineSubAux fuel rest
      else c :: inlineSubAux fuel rest

def inlineFootnoteSub (s : PyStr) : PyStr := inlineSubAux s.length s

/-- The normalized lines that `_remove_repeated_lines` counts: nonempty after
    normalisation and at most 80 characters long. -/
def countedNorms (lines : List PyStr) : List PyStr :=
  (lines.map pyNormalize).filter (fun n => !n.isEmpty && decide (n.length ≤ 80))

/-- `ContentFilter._remove_repeated_lines`: when no normalized line occurs
    strictly more than `threshold` times the input is returned as is; otherwise
    every line whose normalisation is repeated is removed. -/
def remove_repeated_lines (threshold : Nat) (lines : List PyStr) : List PyStr :=
  let counted := countedNorms lines
  if (counted.filter (fun n => decide (threshold < counted.count n))).isEmpty then lines
  else lines.filter (fun ln => !decide (threshold < counted.count (pyNormalize ln)))

/-- `int(len(text) * frontmatter_skip_percent)` (the fraction is nonnegative in
    every configuration this development considers, so `int` truncation is the
    floor). -/
def charSkipCount (cf : ContentFilter) (text : PyStr) : Nat :=
  (⌊(text.length : ℚ) * cf.frontmatter_skip_percent⌋).toNat

/-- The frontmatter step of `ContentFilter.filter_text`: drop the lines before
    the first chapter marker, or fall back to dropping the first
    `int(len(text) * frontmatter_skip_percent)` characters of the raw text and
    re-splitting. -/
def frontmatter_stage (cf : ContentFilter) (text : PyStr) : List PyStr :=
  let lines := pySplitlines text
  if cf.skip_frontmatter then
    match find_content_start lines with
    | some i => lines.drop i
    | none => pySplitlines (text.drop (charSkipCount cf text))
  else lines

/-- The stages of `ContentFilter.filter_text` after the frontmatter step. -/
def later_stages (cf : ContentFilter) (lines0 : List PyStr) : PyStr :=
  let lines1 :=
    if cf.skip_headers_footers then remove_repeated_lines cf.repeat_threshold lines0
    else lines0
  let lines2 :=
    if cf.skip_page_numbers then lines1.filter (fun ln => !pageNumberMatch (pyStrip ln))
    else lines1
  let joined := joinLines lines2
  if cf.skip_footnotes then
    joinLines ((pySplitlines (inlineFootnoteSub joined)).filter
      (fun ln => !(footnoteLineMatch (pyStrip ln) && decide ((pyStrip ln).length ≤ 200))))
  else joined

/-- `ContentFilter.filter_text`. -/
def filter_text (cf : ContentFilter) (text : PyStr) : PyStr :=
  if text.isEmpty then text
  else later_stages cf (frontmatter_stage cf text)

/- ------------------------------------------------------------------
   backend/parsers : repeated-fragment detection
   ------------------------------------------------------------------ -/

/-- Modelled from the spec: `PDFBlockExtractor.find_repeated_headers` is called
    in `pdf_parser._extract_with_position_filtering` and exercised by
    `test_pdf_blocks.test_detect_repeated_headers`, but its definition is
    absent from the repository sources.  Following spec §4.1: normalize each
    fragment's text (trim, lowercase, collapse internal whitespace), count
    occurrences per normalized string regardless of page or zone, exclude
    fragments whose normalized text is empty, and return the normalized
    strings occurring on at least `threshold` fragments. -/
def find_repeated_headers (texts : List PyStr) (threshold : Nat) : List PyStr :=
  let norms := (texts.map pyNormalize).filter (fun n => !n.isEmpty)
  norms.dedup.filter (fun n => decide (threshold ≤ norms.count n))

/-- The PlaybackCursor invariant exactly as the claim words it: position
    nonnegative and speed within the configured `[0.5, MAX_SPEED]`. -/
def playback_invariant_claimed (ps : PlaybackState) : Prop :=
  0 ≤ ps.position_seconds ∧ 1 / 2 ≤ ps.speed ∧ ps.speed ≤ MAX_SPEED

/-- The invariant the code actually maintains: position nonnegative and speed
    within the hardcoded `[0.5, 3.0]` of `update_playback`. -/
def playback_invariant (ps : PlaybackState) : Prop :=
  0 ≤ ps.position_seconds ∧ 1 / 2 ≤ ps.speed ∧ ps.speed ≤ 3

/- ------------------------------------------------------------------
   General lemmas about the string model
   ------------------------------------------------------------------ -/

theorem dropWhile_head_false {α : Type} {p : α → Bool} :
    ∀ (l : List α) {c : α} {rest : List α}, l.dropWhile p = c :: rest → p c = false := by
  intro l
  induction l with
  | nil => intro c rest h; simp [List.dropWhile] at h
  | cons a as ih =>
      intro c rest h
      by_cases hp : p a
      · rw [List.dropWhile_cons, if_pos hp] at h
        exact ih h
      · rw [List.dropWhile_cons, if_neg hp] at h
        obtain ⟨h1, _⟩ := List.cons.inj h
        subst h1
        simpa using hp

theorem dropWhile_dropWhile {α : Type} (p : α → Bool) (l : List α) :
    (l.dropWhile p).dropWhile p = l.dropWhile p := by
  cases h : l.dropWhile p with
  | nil => simp
  | cons c rest =>
      rw [List.dropWhile_cons, if_neg]
      simp [dropWhile_head_false l h]

theorem getLast?_dropWhile {α : Type} (p : α → Bool) :
    ∀ l : List α, l.dropWhile p = [] ∨ (l.dropWhile p).getLast? = l.getLast? := by
  intro l
  induction l with
  | nil => left; rfl
  | cons a as ih =>
      by_cases hp : p a
      · rw [List.dropWhile_cons, if_pos hp]
        cases as with
        | nil => left; rfl
        | cons b bs =>
            rcases ih with h | h
            · left; exact h
            · right; rw [h, List.getLast?_cons_cons]
      · right; rw [List.dropWhile_cons, if_neg hp]

theorem pyStrip_idem (s : PyStr) : pyStrip (pyStrip s) = pyStrip s := by
  unfold pyStrip
  have hrev : ∀ l : List Char,
      ((l.dropWhile isSpace).reverse.dropWhile isSpace).reverse.dropWhile isSpace =
        ((l.dropWhile isSpace).reverse.dropWhile isSpace).reverse := by
    intro l
    cases hB : (l.dropWhile isSpace).reverse.dropWhile isSpace with
    | nil => simp
    | cons c rest =>
        cases hR : (c :: rest).reverse with
        | nil => simp at hR
        | cons d ds =>
            rw [List.dropWhile_cons, if_neg]
            have hd : (c :: rest).getLast? = some d := by
              rw [← List.head?_reverse, hR]; rfl
            rcases getLast?_dropWhile isSpace (l.dropWhile isSpace).reverse with h | h
            · rw [hB] at h; simp at h
            · rw [hB] at h
              rw [h] at hd
              rw [List.getLast?_reverse] at hd
              cases hA : l.dropWhile isSpace with
              | nil => rw [hA] at hd; simp at hd
              | cons e es =>
                  rw [hA] at hd
                  simp only [List.head?_cons, Option.some.injEq] at hd
                  subst hd
                  simp [dropWhile_head_false l hA]
  rw [hrev s]
  rw [List.reverse_reverse, dropWhile_dropWhile]

theorem getD_map {α β : Type} (f : α → β) (l : List α) (i : Nat) (d : α) (d' : β)
    (hi : i < l.length) : (l.map f).getD i d' = f (l.getD i d) := by
  rw [List.getD_eq_getElem?_getD, List.getD_eq_getElem?_getD, List.getElem?_map,
    List.getElem?_eq_getElem hi]
  rfl

theorem sum_take_le_sum (l : List ℚ) (h : ∀ d ∈ l, 0 ≤ d) (k : Nat) :
    (l.take k).sum ≤ l.sum := by
  conv_rhs => rw [← List.take_append_drop k l]
  rw [List.sum_append]
  have : 0 ≤ (l.drop k).sum := by
    apply List.sum_nonneg
    intro x hx
    exact h x (List.mem_of_mem_drop hx)
  linarith

theorem sum_take_succ_getD (l : List ℚ) (k : Nat) (hk : k < l.length) :
    (l.take (k + 1)).sum = (l.take k).sum + l.getD k 0 := by
  rw [List.sum_take_succ l k hk, List.getD_eq_getElem?_getD, List.getElem?_eq_getElem hk]
  rfl

/- ------------------------------------------------------------------
   C2 : duration estimation
   ------------------------------------------------------------------ -/

/-- C2: `_calculate_sentence_durations` returns one duration per sentence;
    each equals `max(0.5, (word_count / 150) * 60 / speed)` for a positive
    whitespace-delimited word count and exactly `1.0` for word count zero, and
    no duration is below `0.5`. -/
theorem estimate_durations_spec (sentences : List PyStr) (speed : ℚ) (_hs : 0 < speed) :
    (_calculate_sentence_durations sentences speed).length = sentences.length ∧
    (∀ i, i < sentences.length →
      (_calculate_sentence_durations sentences speed).getD i 0 =
        if 0 < wordCount (sentences.getD i []) then
          max (1 / 2) (((wordCount (sentences.getD i []) : ℚ) / 150) * 60 / speed)
        else 1) ∧
    (∀ d ∈ _calculate_sentence_durations sentences speed, (1 : ℚ) / 2 ≤ d) := by
  unfold _calculate_sentence_durations
  refine ⟨List.length_map _ _, ?_, ?_⟩
  · intro i hi
    rw [getD_map _ sentences i [] 0 hi]
    by_cases hw : 0 < wordCount (sentences.getD i [])
    · rw [if_pos hw, if_pos hw, max_comm]
    · rw [if_neg hw, if_neg hw, max_eq_left (by norm_num)]
  · intro d hd
    obtain ⟨s, _, rfl⟩ := List.mem_map.mp hd
    exact le_max_right _ _

/-- Witness for C2 at a concrete sentence list and speed. -/
theorem estimate_durations_spec_witness :
    (_calculate_sentence_durations [("one two three").toList, []] 1).length = 2 ∧
    (∀ i, i < ([("one two three").toList, ([] : PyStr)]).length →
      (_calculate_sentence_durations [("one two three").toList, []] 1).getD i 0 =
        if 0 < wordCount (([("one two three").toList, ([] : PyStr)]).getD i []) then
          max (1 / 2)
            (((wordCount (([("one two three").toList, ([] : PyStr)]).getD i []) : ℚ) / 150) *
              60 / 1)
        else 1) ∧
    (∀ d ∈ _calculate_sentence_durations [("one two three").toList, []] 1, (1 : ℚ) / 2 ≤ d) :=
  estimate_durations_spec [("one two three").toList, []] 1 (by norm_num)

/- ------------------------------------------------------------------
   C6 : sentence splitting
   ------------------------------------------------------------------ -/

/-- C6: every sentence returned by `_split_sentences` is trimmed and nonempty;
    whitespace-only input yields an empty list; when the regex split produces
    at most one piece the result is one sentence per non-blank physical line;
    on the claim's two-line input without terminal punctuation exactly two
    sentences result, and punctuation-terminated text splits at the
    terminator-plus-whitespace boundaries. -/
theorem split_sentences_spec :
    (∀ text : PyStr, ∀ p ∈ _split_sentences text, p ≠ [] ∧ pyStrip p = p) ∧
    (∀ text : PyStr, pyStrip text = [] → _split_sentences text = []) ∧
    (∀ text : PyStr, (sentSplitAux false [] (pyStrip text)).length ≤ 1 →
      _split_sentences text =
        ((pySplitlines (pyStrip text)).map pyStrip).filter (fun p => !p.isEmpty)) ∧
    (_split_sentences (("Page content without terminal punctuation\nSecond line").toList)).length
        = 2 ∧
    _split_sentences (("A b. C d! E").toList)
        = [("A b.").toList, ("C d!").toList, ("E").toList] := by
  refine ⟨?_, ?_, ?_, by decide, by decide⟩
  · intro text p hp
    unfold _split_sentences at hp
    by_cases ht : (pyStrip text).isEmpty
    · rw [if_pos ht] at hp; simp at hp
    · rw [if_neg ht] at hp
      simp only [List.mem_filter, List.mem_map] at hp
      obtain ⟨⟨q, _, rfl⟩, hne⟩ := hp
      refine ⟨by simpa using hne, pyStrip_idem q⟩
  · intro text h
    unfold _split_sentences
    rw [if_pos (by simp [h])]
  · intro text hlen
    unfold _split_sentences
    by_cases ht : (pyStrip text).isEmpty
    · rw [if_pos ht]
      have : pyStrip text = [] := by simpa using ht
      rw [this]
      simp [pySplitlines]
    · rw [if_neg ht]
      simp only [if_pos hlen]
      set F := ((pySplitlines (pyStrip text)).map pyStrip).filter (fun p => !p.isEmpty) with hF
      have hmem : ∀ p ∈ F, pyStrip p = p ∧ (!p.isEmpty) = true := by
        intro p hp
        rw [hF] at hp
        simp only [List.mem_filter, List.mem_map] at hp
        obtain ⟨⟨q, _, rfl⟩, hne⟩ := hp
        exact ⟨pyStrip_idem q, hne⟩
      have hmap : F.map pyStrip = F := by
        rw [List.map_congr_left (fun p hp => (hmem p hp).1)]
        exact List.map_id F
      rw [hmap]
      rw [List.filter_eq_self.mpr (fun p hp => (hmem p hp).2)]

/-- Witness for C6: whitespace-only input gives the empty sentence list. -/
theorem split_sentences_spec_witness :
    _split_sentences (("   ").toList) = [] :=
  split_sentences_spec.2.1 (("   ").toList) (by decide)

/- ------------------------------------------------------------------
   C1 : position-to-sentence lookup
   ------------------------------------------------------------------ -/

theorem sentenceSearch_cases (ds : List ℚ) (pos : ℚ) :
    ∀ (cum : ℚ) (i : Nat),
      (∃ k, sentenceSearchAux ds pos cum i = some (i + k) ∧ k < ds.length ∧
        pos < cum + (ds.take k).sum + ds.getD k 0 ∧
        ∀ j < k, ¬ pos < cum + (ds.take j).sum + ds.getD j 0) ∨
      (sentenceSearchAux ds pos cum i = none ∧
        ∀ j < ds.length, ¬ pos < cum + (ds.take j).sum + ds.getD j 0) := by
  induction ds with
  | nil =>
      intro cum i
      right
      exact ⟨rfl, fun j hj => absurd hj (Nat.not_lt_zero j)⟩
  | cons d rest ih =>
      intro cum i
      by_cases h : pos < cum + d
      · left
        refine ⟨0, ?_, by simp, by simpa using h, fun j hj => absurd hj (Nat.not_lt_zero j)⟩
        simp [sentenceSearchAux, h]
      · rcases ih (cum + d) (i + 1) with ⟨k, hk, hklen, hlt, hprev⟩ | ⟨hnone, hall⟩
        · left
          refine ⟨k + 1, ?_, by simpa using Nat.succ_lt_succ hklen, ?_, ?_⟩
          · simp only [sentenceSearchAux, if_neg h]
            rw [hk]
            congr 1
            omega
          · simp only [List.take_succ_cons, List.sum_cons, List.getD_cons_succ]
            linarith
          · intro j hj
            cases j with
            | zero => simpa using h
            | succ m =>
                have hm : m < k := by omega
                have hpm := hprev m hm
                simp only [List.take_succ_cons, List.sum_cons, List.getD_cons_succ]
                intro hcon
                exact hpm (by linarith)
        · right
          refine ⟨?_, ?_⟩
          · simp only [sentenceSearchAux, if_neg h]
            exact hnone
          · intro j hj
            cases j with
            | zero => simpa using h
            | succ m =>
                have hm : m < rest.length := by simpa using hj
                have hpm := hall m hm
                simp only [List.take_succ_cons, List.sum_cons, List.getD_cons_succ]
                intro hcon
                exact hpm (by linarith)

/-- C1 (amended): for every nonempty duration table (entries at the configured
    minimum 0.5 or above, one per sentence) and every position ≥ 0,
    `_get_sentence_at_position` returns the first index `i` with
    `position < cumulative_time_before(i) + durations[i]`, returns the last
    valid index when no index qualifies — in particular whenever the position
    is at least the total duration — and the result is in bounds.  (On an
    empty table the code instead returns `-1`; see the counterexample.) -/
theorem locate_sentence_clamped_corrected (sentences : List PyStr) (durations : List ℚ)
    (pos : ℚ) (hlen : sentences.length = durations.length) (hne : durations ≠ [])
    (_hpos : 0 ≤ pos) (hd : ∀ d ∈ durations, (1 : ℚ) / 2 ≤ d) :
    ∃ k : Nat, _get_sentence_at_position sentences durations pos = (k : Int) ∧
      k < durations.length ∧
      ((pos < (durations.take k).sum + durations.getD k 0 ∧
        ∀ j < k, ¬ pos < (durations.take j).sum + durations.getD j 0) ∨
       (k = durations.length - 1 ∧
        ∀ j < durations.length, ¬ pos < (durations.take j).sum + durations.getD j 0)) ∧
      (durations.sum ≤ pos → k = durations.length - 1) := by
  have h0 : ∀ d ∈ durations, (0 : ℚ) ≤ d := fun d hdm => le_trans (by norm_num) (hd d hdm)
  rcases sentenceSearch_cases durations pos 0 0 with ⟨k, hk, hklen, hlt, hprev⟩ | ⟨hnone, hall⟩
  · simp only [Nat.zero_add, zero_add] at hk hlt hprev
    refine ⟨k, ?_, hklen, Or.inl ⟨hlt, hprev⟩, ?_⟩
    · unfold _get_sentence_at_position
      rw [hk]
    · intro hsum
      exfalso
      have h1 : (durations.take (k + 1)).sum ≤ durations.sum :=
        sum_take_le_sum durations h0 (k + 1)
      have h2 : (durations.take (k + 1)).sum = (durations.take k).sum + durations.getD k 0 :=
        sum_take_succ_getD durations k hklen
      linarith
  · simp only [zero_add] at hall
    have hlen1 : 1 ≤ durations.length := by
      cases durations with
      | nil => exact absurd rfl hne
      | cons a l => simp
    refine ⟨durations.length - 1, ?_, by omega, Or.inr ⟨rfl, hall⟩, fun _ => rfl⟩
    have hval : _get_sentence_at_position sentences durations pos
        = (sentences.length : Int) - 1 := by
      unfold _get_sentence_at_position
      rw [hnone]
    rw [hval, hlen]
    omega

/-- Witness for C1 at a two-entry duration table. -/
theorem locate_sentence_clamped_corrected_witness :
    ∃ k : Nat, _get_sentence_at_position [("a").toList, ("b").toList] [1, 2] (3 / 2) = (k : Int) ∧
      k < ([1, 2] : List ℚ).length ∧
      ((3 / 2 < (([1, 2] : List ℚ).take k).sum + ([1, 2] : List ℚ).getD k 0 ∧
        ∀ j < k, ¬ (3 / 2 : ℚ) < (([1, 2] : List ℚ).take j).sum + ([1, 2] : List ℚ).getD j 0) ∨
       (k = ([1, 2] : List ℚ).length - 1 ∧
        ∀ j < ([1, 2] : List ℚ).length,
          ¬ (3 / 2 : ℚ) < (([1, 2] : List ℚ).take j).sum + ([1, 2] : List ℚ).getD j 0)) ∧
      (([1, 2] : List ℚ).sum ≤ 3 / 2 → k = ([1, 2] : List ℚ).length - 1) :=
  locate_sentence_clamped_corrected [("a").toList, ("b").toList] [1, 2] (3 / 2) rfl
    (by simp) (by norm_num) (by intro d hdm; fin_cases hdm <;> norm_num)

/-- C1 counterexample: on the empty duration table (and empty sentence list)
    the function returns `-1`, a negative, out-of-bounds index, refuting the
    claim as stated for every duration table. -/
theorem locate_sentence_empty_counterexample :
    _get_sentence_at_position [] [] 0 = -1 ∧ _get_sentence_at_position [] [] 0 < 0 := by
  constructor <;> decide

/- ------------------------------------------------------------------
   C3 : adaptive speed
   ------------------------------------------------------------------ -/

theorem compute_adaptive_speed_eq_clamp (a b : ℚ) (c : Int) (d e f : ℚ) :
    _compute_adaptive_speed a b c d e f =
      max (1 / 2) (min d (a +
        ((⌊(max 0 ((e - f) / 60)) / ((max 1 c : Int) : ℚ)⌋ : ℚ) * b))) := by
  simp only [_compute_adaptive_speed]
  set S : ℚ := a + ((⌊(max 0 ((e - f) / 60)) / ((max 1 c : Int) : ℚ)⌋ : ℚ) * b) with hS
  by_cases h1 : d < S
  · rw [if_pos h1]
    by_cases h2 : d < 1 / 2
    · rw [if_pos h2, min_eq_left (le_of_lt h1), max_eq_left (le_of_lt h2)]
    · rw [if_neg h2, min_eq_left (le_of_lt h1), max_eq_right (le_of_not_lt h2)]
  · rw [if_neg h1]
    by_cases h2 : S < 1 / 2
    · rw [if_pos h2, min_eq_right (le_of_not_lt h1), max_eq_left (le_of_lt h2)]
    · rw [if_neg h2, min_eq_right (le_of_not_lt h1), max_eq_right (le_of_not_lt h2)]

/-- C3 (corrected): the code clamps in the order `max(0.5, min(max_speed, ·))`
    rather than the claimed `min(max_speed, max(0.5, ·))`; the two coincide
    whenever `max_speed ≥ 0.5` (so in every sensible configuration), the
    function is monotone non-decreasing in elapsed session time for a
    nonnegative increment, and the claim's two concrete evaluations hold:
    44 minutes gives 1.7 and 200 minutes saturates at 2.5. -/
theorem compute_adaptive_speed_corrected :
    (∀ a b : ℚ, ∀ c : Int, ∀ d e f : ℚ,
      _compute_adaptive_speed a b c d e f =
        max (1 / 2) (min d (a +
          ((⌊(max 0 ((e - f) / 60)) / ((max 1 c : Int) : ℚ)⌋ : ℚ) * b)))) ∧
    (∀ a b : ℚ, ∀ c : Int, ∀ d e f : ℚ, 1 / 2 ≤ d →
      _compute_adaptive_speed a b c d e f = adaptive_speed_spec_formula a b c d e f) ∧
    (∀ a b : ℚ, ∀ c : Int, ∀ d f now nowLater : ℚ, 0 ≤ b → now ≤ nowLater →
      _compute_adaptive_speed a b c d now f ≤ _compute_adaptive_speed a b c d nowLater f) ∧
    _compute_adaptive_speed START_SPEED SPEED_INCREMENT INCREMENT_INTERVAL_MIN MAX_SPEED
      2640 0 = 17 / 10 ∧
    _compute_adaptive_speed START_SPEED SPEED_INCREMENT INCREMENT_INTERVAL_MIN MAX_SPEED
      12000 0 = 5 / 2 := by
  have hmax15 : (max 1 15 : Int) = 15 := by decide
  refine ⟨compute_adaptive_speed_eq_clamp, ?_, ?_, ?_, ?_⟩
  · intro a b c d e f hd
    rw [compute_adaptive_speed_eq_clamp]
    unfold adaptive_speed_spec_formula
    set S : ℚ := a + ((⌊(max 0 ((e - f) / 60)) / ((max 1 c : Int) : ℚ)⌋ : ℚ) * b) with hS
    by_cases h : 1 / 2 ≤ S
    · rw [max_eq_right h, max_eq_right (le_min hd h)]
    · push_neg at h
      rw [max_eq_left (le_of_lt h), min_eq_right hd,
        min_eq_right (le_of_lt (lt_of_lt_of_le h hd)), max_eq_left (le_of_lt h)]
  · intro a b c d f now nowLater hb hnn
    rw [compute_adaptive_speed_eq_clamp, compute_adaptive_speed_eq_clamp]
    have h1 : (1 : ℚ) ≤ ((max 1 c : Int) : ℚ) := by exact_mod_cast le_max_left 1 c
    have hI : (0 : ℚ) < ((max 1 c : Int) : ℚ) := by linarith
    have hfl : ⌊(max 0 ((now - f) / 60)) / ((max 1 c : Int) : ℚ)⌋ ≤
        ⌊(max 0 ((nowLater - f) / 60)) / ((max 1 c : Int) : ℚ)⌋ := by
      apply Int.floor_le_floor
      apply (div_le_div_right hI).mpr
      apply max_le_max le_rfl
      apply (div_le_div_right (by norm_num : (0 : ℚ) < 60)).mpr
      linarith
    apply max_le_max le_rfl
    apply min_le_min le_rfl
    apply add_le_add_left
    exact mul_le_mul_of_nonneg_right (by exact_mod_cast hfl) hb
  · rw [compute_adaptive_speed_eq_clamp]
    unfold START_SPEED SPEED_INCREMENT INCREMENT_INTERVAL_MIN MAX_SPEED
    rw [hmax15]
    norm_num
  · rw [compute_adaptive_speed_eq_clamp]
    unfold START_SPEED SPEED_INCREMENT INCREMENT_INTERVAL_MIN MAX_SPEED
    rw [hmax15]
    norm_num

/-- Witness for C3: monotonicity applied at a concrete pair of timestamps. -/
theorem compute_adaptive_speed_corrected_witness :
    _compute_adaptive_speed (3 / 2) (1 / 10) 15 (5 / 2) 0 0 ≤
      _compute_adaptive_speed (3 / 2) (1 / 10) 15 (5 / 2) 2640 0 :=
  compute_adaptive_speed_corrected.2.2.1 (3 / 2) (1 / 10) 15 (5 / 2) 0 0 2640
    (by norm_num) (by norm_num)

/-- C3 counterexample: with `max_speed = 0.3 < 0.5` the code returns 0.5 while
    the claim's formula `min(max_speed, max(0.5, ·))` yields 0.3 — the claimed
    clamping order does not match the source. -/
theorem compute_adaptive_speed_clamp_order_counterexample :
    _compute_adaptive_speed (3 / 10) 0 15 (3 / 10) 0 0 = 1 / 2 ∧
    adaptive_speed_spec_formula (3 / 10) 0 15 (3 / 10) 0 0 = 3 / 10 ∧
    _compute_adaptive_speed (3 / 10) 0 15 (3 / 10) 0 0 ≠
      adaptive_speed_spec_formula (3 / 10) 0 15 (3 / 10) 0 0 := by
  have hmax15 : (max 1 15 : Int) = 15 := by decide
  have h1 : _compute_adaptive_speed (3 / 10) 0 15 (3 / 10) 0 0 = 1 / 2 := by
    rw [compute_adaptive_speed_eq_clamp, hmax15]
    norm_num
  have h2 : adaptive_speed_spec_formula (3 / 10) 0 15 (3 / 10) 0 0 = 3 / 10 := by
    unfold adaptive_speed_spec_formula
    rw [hmax15]
    norm_num
  refine ⟨h1, h2, ?_⟩
  rw [h1, h2]
  norm_num

/- ------------------------------------------------------------------
   C9 : playback state invariant
   ------------------------------------------------------------------ -/

/-- C9 (amended): the four mutating operations preserve nonnegativity of the
    position and keep the speed within the hardcoded `[0.5, 3.0]` interval of
    `update_playback` (not the configured `max_speed = 2.5`, which a direct
    speed update may exceed — see the counterexample). -/
theorem playback_ops_preserve_invariant :
    (∀ (ps : PlaybackState) (posReq spdReq : Option ℚ), playback_invariant ps →
      playback_invariant (update_playback ps posReq spdReq)) ∧
    (∀ (ps : PlaybackState) (now : ℚ), playback_invariant ps →
      playback_invariant (get_playback_speed_op ps now)) ∧
    (∀ (sentences : List PyStr) (now : ℚ),
      playback_invariant (upsert_current_book sentences now)) ∧
    (∀ (ps : PlaybackState) (now : ℚ), playback_invariant ps →
      playback_invariant (close_current_book ps now)) := by
  refine ⟨?_, ?_, ?_, ?_⟩
  · rintro ps posReq spdReq ⟨hp, hs1, hs2⟩
    have hspd : ∀ s : ℚ, (1 : ℚ) / 2 ≤ max (1 / 2) (min 3 s) ∧ max (1 / 2) (min 3 s) ≤ 3 :=
      fun s => ⟨le_max_left _ _, max_le (by norm_num) (min_le_left _ _)⟩
    cases posReq with
    | none =>
        cases spdReq with
        | none => exact ⟨hp, hs1, hs2⟩
        | some s => exact ⟨hp, (hspd s).1, (hspd s).2⟩
    | some p =>
        cases spdReq with
        | none => exact ⟨le_max_left _ _, hs1, hs2⟩
        | some s => exact ⟨le_max_left _ _, (hspd s).1, (hspd s).2⟩
  · rintro ps now ⟨hp, _, _⟩
    refine ⟨hp, ?_, ?_⟩
    · show (1 : ℚ) / 2 ≤ _compute_adaptive_speed START_SPEED SPEED_INCREMENT
        INCREMENT_INTERVAL_MIN MAX_SPEED now ps.session_start
      rw [compute_adaptive_speed_eq_clamp]
      exact le_max_left _ _
    · show _compute_adaptive_speed START_SPEED SPEED_INCREMENT
        INCREMENT_INTERVAL_MIN MAX_SPEED now ps.session_start ≤ 3
      rw [compute_adaptive_speed_eq_clamp]
      apply max_le (by norm_num)
      calc min MAX_SPEED _ ≤ MAX_SPEED := min_le_left _ _
        _ ≤ 3 := by norm_num [MAX_SPEED]
  · intro sentences now
    exact ⟨le_refl 0, by norm_num [upsert_current_book, START_SPEED],
      by norm_num [upsert_current_book, START_SPEED]⟩
  · rintro ps now ⟨_, _, _⟩
    exact ⟨le_refl 0, by norm_num [close_current_book, START_SPEED],
      by norm_num [close_current_book, START_SPEED]⟩

/-- Witness for C9 at a concrete state and update request. -/
theorem playback_ops_preserve_invariant_witness :
    playback_invariant (update_playback
      { position_seconds := 0, speed := 3 / 2, session_start := 0,
        current_sentence_index := 0, sentence_durations := [] }
      (some 7) (some (14 / 5))) :=
  playback_ops_preserve_invariant.1
    { position_seconds := 0, speed := 3 / 2, session_start := 0,
      current_sentence_index := 0, sentence_durations := [] }
    (some 7) (some (14 / 5)) ⟨by norm_num, by norm_num, by norm_num⟩

/-- C9 counterexample: a playback update requesting speed 2.8 is accepted
    (clamped only to the hardcoded 3.0), leaving the stored speed above the
    configured `MAX_SPEED = 2.5`, so the claimed invariant is not preserved. -/
theorem playback_speed_bound_counterexample :
    playback_invariant_claimed
      { position_seconds := 0, speed := 3 / 2, session_start := 0,
        current_sentence_index := 0, sentence_durations := [] } ∧
    (update_playback
      { position_seconds := 0, speed := 3 / 2, session_start := 0,
        current_sentence_index := 0, sentence_durations := [] }
      none (some (14 / 5))).speed = 14 / 5 ∧
    ¬ playback_invariant_claimed (update_playback
      { position_seconds := 0, speed := 3 / 2, session_start := 0,
        current_sentence_index := 0, sentence_durations := [] }
      none (some (14 / 5))) := by
  have hval : (update_playback
      { position_seconds := 0, speed := 3 / 2, session_start := 0,
        current_sentence_index := 0, sentence_durations := [] }
      none (some (14 / 5))).speed = 14 / 5 := by
    show max (1 / 2) (min 3 (14 / 5)) = (14 / 5 : ℚ)
    rw [min_eq_right (by norm_num)]
    rw [max_eq_right (by norm_num)]
  refine ⟨⟨le_refl 0, by norm_num, by norm_num [MAX_SPEED]⟩, hval, ?_⟩
  intro hinv
  have := hinv.2.2
  rw [hval] at this
  norm_num [MAX_SPEED] at this

/- ------------------------------------------------------------------
   C4 : repeated-fragment detection (spec-modelled)
   ------------------------------------------------------------------ -/

/-- C4 (spec-modelled): membership in `find_repeated_headers` is exactly
    "nonempty normalized text occurring on at least `threshold` fragments";
    the exact-threshold boundary is included, the `threshold - 1` boundary is
    excluded, empty normalized texts never appear, and the repository's own
    test case evaluates as the test expects. -/
theorem find_repeated_headers_spec :
    (∀ (texts : List PyStr) (t : Nat) (s : PyStr),
      s ∈ find_repeated_headers texts t → s ≠ []) ∧
    (∀ (texts : List PyStr) (t : Nat) (s : PyStr), s ≠ [] →
      (s ∈ find_repeated_headers texts t ↔
        0 < (texts.map pyNormalize).count s ∧ t ≤ (texts.map pyNormalize).count s)) ∧
    (∀ (texts : List PyStr) (t : Nat) (s : PyStr), s ≠ [] → 1 ≤ t →
      (texts.map pyNormalize).count s = t → s ∈ find_repeated_headers texts t) ∧
    (∀ (texts : List PyStr) (t : Nat) (s : PyStr), 1 ≤ t →
      (texts.map pyNormalize).count s = t - 1 → s ∉ find_repeated_headers texts t) ∧
    find_repeated_headers
      [("Book Title").toList, ("Book Title").toList, ("Book Title").toList,
       ("Unique content").toList] 3 = [("book title").toList] := by
  have hmem : ∀ (texts : List PyStr) (t : Nat) (s : PyStr),
      s ∈ find_repeated_headers texts t ↔
        (s ∈ ((texts.map pyNormalize).filter (fun n => !n.isEmpty)) ∧
          t ≤ ((texts.map pyNormalize).filter (fun n => !n.isEmpty)).count s) := by
    intro texts t s
    unfold find_repeated_headers
    simp only [List.mem_filter, List.mem_dedup, decide_eq_true_eq]
  have hne_of_mem : ∀ (texts : List PyStr) (t : Nat) (s : PyStr),
      s ∈ find_repeated_headers texts t → s ≠ [] := by
    intro texts t s hs
    have := ((hmem texts t s).mp hs).1
    have hpred := (List.mem_filter.mp this).2
    simpa [List.isEmpty_eq_false] using hpred
  have hiff : ∀ (texts : List PyStr) (t : Nat) (s : PyStr), s ≠ [] →
      (s ∈ find_repeated_headers texts t ↔
        0 < (texts.map pyNormalize).count s ∧ t ≤ (texts.map pyNormalize).count s) := by
    intro texts t s hs
    have hp : (fun n : PyStr => !n.isEmpty) s = true := by
      simpa [List.isEmpty_eq_false] using hs
    have hcount : ((texts.map pyNormalize).filter (fun n => !n.isEmpty)).count s =
        (texts.map pyNormalize).count s := List.count_filter hp
    rw [hmem texts t s, hcount]
    constructor
    · rintro ⟨hin, hle⟩
      have : s ∈ texts.map pyNormalize := (List.mem_filter.mp hin).1
      exact ⟨List.count_pos_iff.mpr this, hle⟩
    · rintro ⟨hpos, hle⟩
      exact ⟨List.mem_filter.mpr ⟨List.count_pos_iff.mp hpos, hp⟩, hle⟩
  refine ⟨hne_of_mem, hiff, ?_, ?_, by decide⟩
  · intro texts t s hs ht hcount
    exact (hiff texts t s hs).mpr ⟨by omega, by omega⟩
  · intro texts t s ht hcount hmem'
    have hs := hne_of_mem texts t s hmem'
    have := ((hiff texts t s hs).mp hmem').2
    omega

/-- Witness for C4 on the repository's test data: "book title" occurs on
    exactly three fragments and is detected at threshold 3. -/
theorem find_repeated_headers_spec_witness :
    ("book title").toList ∈ find_repeated_headers
      [("Book Title").toList, ("Book Title").toList, ("Book Title").toList,
       ("Unique content").toList] 3 :=
  find_repeated_headers_spec.2.2.1
    [("Book Title").toList, ("Book Title").toList, ("Book Title").toList,
     ("Unique content").toList] 3 (("book title").toList)
    (by decide) (by decide) (by decide)

/- ------------------------------------------------------------------
   C8 / C10 : token stream punctuation attachment
   ------------------------------------------------------------------ -/

theorem setTrailingPunct_getD (tokens : List Token) (m : PyStr) (hne : tokens ≠ []) :
    (setTrailingPunct tokens m).length = tokens.length ∧
    ((setTrailingPunct tokens m).getD (tokens.length - 1) default).punct = m ∧
    (isEndMatch m = true →
      ((setTrailingPunct tokens m).getD (tokens.length - 1) default).sentence_end = true) ∧
    (∀ j, j + 1 < tokens.length →
      (setTrailingPunct tokens m).getD j default = tokens.getD j default) ∧
    ((tokens.getD (tokens.length - 1) default).sentence_end = true →
      ((setTrailingPunct tokens m).getD (tokens.length - 1) default).sentence_end = true) := by
  have hlen1 : 1 ≤ tokens.length := by
    cases tokens with
    | nil => exact absurd rfl hne
    | cons a l => simp
  unfold setTrailingPunct
  rw [List.getLast?_eq_getLast tokens hne]
  set t := tokens.getLast hne with ht
  set t' := if isEndMatch m then { t with punct := m, sentence_end := true }
    else { t with punct := m } with ht'
  have hdl : tokens.dropLast.length = tokens.length - 1 := List.length_dropLast tokens
  have hlen : (tokens.dropLast ++ [t']).length = tokens.length := by
    rw [List.length_append, hdl]
    simp
    omega
  have hgetD : (tokens.dropLast ++ [t']).getD (tokens.length - 1) default = t' := by
    rw [List.getD_eq_getElem?_getD, List.getElem?_append_right (by omega), hdl]
    have : tokens.length - 1 - (tokens.length - 1) = 0 := by omega
    rw [this]
    rfl
  have hpunct : t'.punct = m := by
    rw [ht']
    by_cases he : isEndMatch m
    · rw [if_pos he]
    · rw [if_neg he]
  have hlast : tokens.getD (tokens.length - 1) default = t := by
    rw [ht, List.getLast_eq_getElem, List.getD_eq_getElem?_getD,
      List.getElem?_eq_getElem (by omega)]
    rfl
  refine ⟨hlen, by rw [hgetD]; exact hpunct, ?_, ?_, ?_⟩
  · intro he
    rw [hgetD, ht', if_pos he]
  · intro j hj
    rw [List.getD_eq_getElem?_getD, List.getElem?_append_left (by omega),
      List.getD_eq_getElem?_getD]
    rw [List.getElem?_dropLast]
    rw [if_pos (by omega)]
  · intro hse
    rw [hgetD, ht']
    by_cases he : isEndMatch m
    · rw [if_pos he]
    · rw [if_neg he]
      show t.sentence_end = true
      rw [← hlast]
      exact hse

theorem applyMatch_se_stable (tokens : List Token) (m : PyStr) (pidx : Nat) (j : Nat)
    (hj : j < tokens.length) (hse : (tokens.getD j default).sentence_end = true) :
    j < (applyMatch tokens m pidx).length ∧
    ((applyMatch tokens m pidx).getD j default).sentence_end = true := by
  unfold applyMatch
  by_cases hc : (isPunctMatch m && !tokens.isEmpty) = true
  · rw [if_pos hc]
    have hne : tokens ≠ [] := by
      intro h
      subst h
      simp at hj
    have hlem := setTrailingPunct_getD tokens m hne
    by_cases hj1 : j + 1 < tokens.length
    · rw [hlem.2.2.2.1 j hj1]
      exact ⟨by rw [hlem.1]; exact hj, hse⟩
    · have hjeq : j = tokens.length - 1 := by omega
      subst hjeq
      exact ⟨by rw [hlem.1]; exact hj, hlem.2.2.2.2 hse⟩
  · rw [if_neg hc]
    refine ⟨by rw [List.length_append]; simp; omega, ?_⟩
    rw [List.getD_eq_getElem?_getD, List.getElem?_append_left hj,
      ← List.getD_eq_getElem?_getD]
    exact hse

theorem foldl_applyMatch_se_stable (ms : List PyStr) (pidx : Nat) :
    ∀ (tokens : List Token) (j : Nat), j < tokens.length →
      (tokens.getD j default).sentence_end = true →
      j < (ms.foldl (fun ts m => applyMatch ts m pidx) tokens).length ∧
      ((ms.foldl (fun ts m => applyMatch ts m pidx) tokens).getD j default).sentence_end
        = true := by
  induction ms with
  | nil =>
      intro tokens j hj hse
      exact ⟨hj, hse⟩
  | cons m ms ih =>
      intro tokens j hj hse
      have hstep := applyMatch_se_stable tokens m pidx j hj hse
      simpa using ih (applyMatch tokens m pidx) j hstep.1 hstep.2

/-- C8 (amended): a punctuation match with at least one token already emitted
    mutates the trailing token (sets `punct`, and `sentence_end` for `.!?`)
    without changing the token count; a punctuation match with no preceding
    token is emitted as a token of its own (text = the punctuation character)
    rather than silently dropped; and the claim's concrete example tokenizes
    exactly as stated ("world" carries ".", the final "para" carries "!" with
    `sentence_end` and paragraph index 1). -/
theorem tokenize_punct_attach_corrected :
    (∀ (tokens : List Token) (m : PyStr) (pidx : Nat),
      isPunctMatch m = true → tokens ≠ [] →
      (applyMatch tokens m pidx).length = tokens.length ∧
      ((applyMatch tokens m pidx).getD (tokens.length - 1) default).punct = m ∧
      (isEndMatch m = true →
        ((applyMatch tokens m pidx).getD (tokens.length - 1) default).sentence_end
          = true)) ∧
    (∀ (m : PyStr) (pidx : Nat), isPunctMatch m = true →
      applyMatch [] m pidx =
        [{ text := m, punct := [], sentence_end := false, paragraph_index := pidx }]) ∧
    tokenize_paragraphs [("Hello world. Next, line.").toList, ("New para!").toList] =
      [{ text := ("Hello").toList, punct := [], sentence_end := false,
         paragraph_index := 0 },
       { text := ("world").toList, punct := (".").toList, sentence_end := true,
         paragraph_index := 0 },
       { text := ("Next").toList, punct := (",").toList, sentence_end := false,
         paragraph_index := 0 },
       { text := ("line").toList, punct := (".").toList, sentence_end := true,
         paragraph_index := 0 },
       { text := ("New").toList, punct := [], sentence_end := false,
         paragraph_index := 1 },
       { text := ("para").toList, punct := ("!").toList, sentence_end := true,
         paragraph_index := 1 }] ∧
    tokenize_paragraphs [(". Hello").toList] =
      [{ text := (".").toList, punct := [], sentence_end := false, paragraph_index := 0 },
       { text := ("Hello").toList, punct := [], sentence_end := false,
         paragraph_index := 0 }] := by
  refine ⟨?_, ?_, by decide, by decide⟩
  · intro tokens m pidx hm hne
    have hc : (isPunctMatch m && !tokens.isEmpty) = true := by
      rw [hm, Bool.true_and, Bool.not_eq_true', ← Bool.not_eq_true, List.isEmpty_iff]
      simpa using hne
    unfold applyMatch
    rw [if_pos hc]
    have hlem := setTrailingPunct_getD tokens m hne
    exact ⟨hlem.1, hlem.2.1, hlem.2.2.1⟩
  · intro m pidx hm
    unfold applyMatch
    rw [if_neg (by simp)]
    rfl

/-- Witness for C8: a leading punctuation match on an empty token list becomes
    its own token. -/
theorem tokenize_punct_attach_corrected_witness :
    applyMatch [] ((".").toList) 0 =
      [{ text := (".").toList, punct := [], sentence_end := false, paragraph_index := 0 }] :=
  tokenize_punct_attach_corrected.2.1 ((".").toList) 0 (by decide)

/-- C8 counterexample: on the paragraph ". Hello" the leading "." is not
    dropped — the code emits it as a token of its own, so the token list has
    two entries and its first entry has text ".". -/
theorem tokenize_leading_punct_counterexample :
    (tokenize_paragraphs [(". Hello").toList]).length = 2 ∧
    (tokenize_paragraphs [(". Hello").toList]).getD 0 default =
      { text := (".").toList, punct := [], sentence_end := false, paragraph_index := 0 } := by
  constructor <;> decide

/-- C10: successive punctuation matches each overwrite the preceding token's
    `punct` field while `sentence_end`, once set by `.`/`!`/`?`, is never reset
    by a later `,`/`;`/`:` — the input "word!," yields one token with punct ","
    and `sentence_end` true, and along any run of the match loop a token whose
    `sentence_end` is true keeps it true. -/
theorem sentence_end_stable :
    tokenize_paragraphs [("word!,").toList] =
      [{ text := ("word").toList, punct := (",").toList, sentence_end := true,
         paragraph_index := 0 }] ∧
    (∀ (ms : List PyStr) (pidx : Nat) (tokens : List Token) (j : Nat),
      j < tokens.length → (tokens.getD j default).sentence_end = true →
      ((ms.foldl (fun ts m => applyMatch ts m pidx) tokens).getD j default).sentence_end
        = true) :=
  ⟨by decide, fun ms pidx tokens j hj hse =>
    (foldl_applyMatch_se_stable ms pidx tokens j hj hse).2⟩

/-- Witness for C10: a token with `sentence_end` true keeps it after a comma
    match is folded in. -/
theorem sentence_end_stable_witness :
    ((([(",").toList] : List PyStr).foldl
      (fun ts m => applyMatch ts m 0)
      [{ text := ("w").toList, punct := ("!").toList, sentence_end := true,
         paragraph_index := 0 }]).getD 0 default).sentence_end = true :=
  sentence_end_stable.2 [(",").toList] 0
    [{ text := ("w").toList, punct := ("!").toList, sentence_end := true,
       paragraph_index := 0 }] 0 (by decide) (by decide)

/- ------------------------------------------------------------------
   C5 / C7 : content filter
   ------------------------------------------------------------------ -/

theorem splitlinesAux_ne_nil_bounded :
    ∀ (n : Nat) (l : List Char), l.length ≤ n → ∀ acc, splitlinesAux acc l ≠ [] := by
  intro n
  induction n with
  | zero =>
      intro l hl acc
      have hl0 : l = [] := List.length_eq_zero.mp (Nat.le_zero.mp hl)
      subst hl0
      simp [splitlinesAux]
  | succ n ih =>
      intro l hl acc
      rw [splitlinesAux.eq_def]
      split
      · simp
      · split <;> simp
      · split
        · split
          · split <;> simp
          · simp
        · apply ih
          simp only [List.length_cons] at hl ⊢
          omega

theorem splitlinesAux_ne_nil (acc l : List Char) : splitlinesAux acc l ≠ [] :=
  splitlinesAux_ne_nil_bounded l.length l le_rfl acc

theorem findIdxAux_some (p : PyStr → Bool) :
    ∀ (l : List PyStr) (start i : Nat), i < l.length → p (l.getD i []) = true →
      (∀ j, j < i → p (l.getD j []) = false) →
      findIdxAux p l start = some (start + i) := by
  intro l
  induction l with
  | nil => intro start i hi; simp at hi
  | cons a as ih =>
      intro start i hi hp hprev
      cases i with
      | zero =>
          simp only [List.getD_cons_zero] at hp
          simp only [findIdxAux, if_pos hp, Nat.add_zero]
      | succ m =>
          have ha : p a = false := by
            simpa using hprev 0 (Nat.succ_pos m)
          simp only [findIdxAux, ha, Bool.false_eq_true, if_false]
          have := ih (start + 1) m (by simpa using hi) (by simpa using hp)
            (fun j hj => by simpa using hprev (j + 1) (by omega))
          rw [this]
          congr 1
          omega

theorem findIdxAux_none (p : PyStr → Bool) :
    ∀ (l : List PyStr) (start : Nat),
      (∀ j, j < l.length → p (l.getD j []) = false) →
      findIdxAux p l start = none := by
  intro l
  induction l with
  | nil => intro start _; rfl
  | cons a as ih =>
      intro start h
      have ha : p a = false := by simpa using h 0 (by simp)
      simp only [findIdxAux, ha, Bool.false_eq_true, if_false]
      exact ih (start + 1) (fun j hj => by simpa using h (j + 1) (by simpa using hj))

/-- C5: with frontmatter skipping enabled, if some line among the first 1000
    matches the chapter-marker pattern then every line before the first such
    line is dropped and that line onward preserved; if no line in the scan
    window matches, exactly `floor(len(text) * frontmatter_skip_fraction)`
    characters are dropped from the raw text by character offset and the
    remainder re-split into lines; and `filter_text` feeds exactly this stage's
    output into the later stages. -/
theorem frontmatter_skip_spec (cf : ContentFilter) (text : PyStr)
    (hf : cf.skip_frontmatter = true) :
    (∀ i, i < 1000 → i < (pySplitlines text).length →
      chapterMatch ((pySplitlines text).getD i []) = true →
      (∀ j, j < i → chapterMatch ((pySplitlines text).getD j []) = false) →
      frontmatter_stage cf text = (pySplitlines text).drop i) ∧
    ((∀ j, j < 1000 → j < (pySplitlines text).length →
        chapterMatch ((pySplitlines text).getD j []) = false) →
      frontmatter_stage cf text = pySplitlines (text.drop (charSkipCount cf text))) ∧
    (0 ≤ cf.frontmatter_skip_percent →
      (charSkipCount cf text : Int) = ⌊(text.length : ℚ) * cf.frontmatter_skip_percent⌋) ∧
    (text.isEmpty = false →
      filter_text cf text = later_stages cf (frontmatter_stage cf text)) := by
  have htake : ∀ j, j < 1000 →
      ((pySplitlines text).take 1000).getD j [] = (pySplitlines text).getD j [] := by
    intro j hj
    rw [List.getD_eq_getElem?_getD, List.getD_eq_getElem?_getD, List.getElem?_take,
      if_pos hj]
  refine ⟨?_, ?_, ?_, ?_⟩
  · intro i hi1000 hilen hip hiprev
    have hlen' : i < ((pySplitlines text).take 1000).length := by
      rw [List.length_take]
      omega
    have hsome := findIdxAux_some chapterMatch ((pySplitlines text).take 1000) 0 i hlen'
      (by rw [htake i hi1000]; exact hip)
      (fun j hj => by rw [htake j (by omega)]; exact hiprev j hj)
    rw [Nat.zero_add] at hsome
    simp only [frontmatter_stage, find_content_start, hf, if_true]
    rw [hsome]
  · intro hnone
    have hn := findIdxAux_none chapterMatch ((pySplitlines text).take 1000) 0
      (fun j hj => by
        rw [List.length_take] at hj
        rw [htake j (by omega)]
        exact hnone j (by omega) (by omega))
    simp only [frontmatter_stage, find_content_start, hf, if_true]
    rw [hn]
  · intro hpc
    unfold charSkipCount
    exact Int.toNat_of_nonneg
      (Int.floor_nonneg.mpr (mul_nonneg (by positivity) hpc))
  · intro h
    simp only [filter_text, h, Bool.false_eq_true, if_false]

/-- Witness for C5: a preamble line followed by "Chapter 1" drops exactly the
    preamble. -/
theorem frontmatter_skip_spec_witness :
    frontmatter_stage defaultContentFilter (("Preamble\nChapter 1\nBody").toList) =
      (pySplitlines (("Preamble\nChapter 1\nBody").toList)).drop 1 :=
  (frontmatter_skip_spec defaultContentFilter (("Preamble\nChapter 1\nBody").toList) rfl).1
    1 (by norm_num) (by decide) (by decide)
    (by intro j hj; have hj0 : j = 0 := by omega
        subst hj0; decide)

/-- C7 (corrected): `filter_text` is the identity on text that opens with a
    chapter marker (otherwise the frontmatter fallback truncates even clean
    text — see the counterexample), uses single `\n` separators with no
    trailing newline, has no normalized line occurring more than the repeat
    threshold among counted lines, no page-number lines, no inline bracketed
    footnote markers and no short footnote-candidate lines; the empty string is
    returned unchanged. -/
theorem filter_text_clean_identity_corrected (s : PyStr) (hne : s.isEmpty = false)
    (hchap : chapterMatch ((pySplitlines s).getD 0 []) = true)
    (hjoin : joinLines (pySplitlines s) = s)
    (hrep : ∀ n ∈ countedNorms (pySplitlines s),
      (countedNorms (pySplitlines s)).count n ≤ 3)
    (hpage : ∀ ln ∈ pySplitlines s, pageNumberMatch (pyStrip ln) = false)
    (hinl : inlineFootnoteSub s = s)
    (hfoot : ∀ ln ∈ pySplitlines s,
      ¬(footnoteLineMatch (pyStrip ln) = true ∧ (pyStrip ln).length ≤ 200)) :
    filter_text defaultContentFilter s = s ∧
    filter_text defaultContentFilter [] = [] := by
  have hright : filter_text defaultContentFilter [] = [] := by decide
  refine ⟨?_, hright⟩
  have hlines_ne : pySplitlines s ≠ [] := by
    unfold pySplitlines
    rw [if_neg (by simp [hne])]
    exact splitlinesAux_ne_nil [] s
  have hlen0 : 0 < (pySplitlines s).length := List.length_pos.mpr hlines_ne
  have htake0 : ((pySplitlines s).take 1000).getD 0 [] = (pySplitlines s).getD 0 [] := by
    rw [List.getD_eq_getElem?_getD, List.getD_eq_getElem?_getD, List.getElem?_take,
      if_pos (by norm_num)]
  have hfcs : find_content_start (pySplitlines s) = some 0 := by
    have h := findIdxAux_some chapterMatch ((pySplitlines s).take 1000) 0 0
      (by rw [List.length_take]; omega)
      (by rw [htake0]; exact hchap)
      (fun j hj => absurd hj (Nat.not_lt_zero j))
    simpa [find_content_start] using h
  have hskf : defaultContentFilter.skip_frontmatter = true := rfl
  have hskh : defaultContentFilter.skip_headers_footers = true := rfl
  have hskp : defaultContentFilter.skip_page_numbers = true := rfl
  have hskn : defaultContentFilter.skip_footnotes = true := rfl
  have hstage : frontmatter_stage defaultContentFilter s = pySplitlines s := by
    simp only [frontmatter_stage]
    rw [if_pos hskf, hfcs]
    simp
  have hrem : remove_repeated_lines 3 (pySplitlines s) = pySplitlines s := by
    simp only [remove_repeated_lines]
    rw [if_pos]
    rw [List.isEmpty_iff, List.filter_eq_nil_iff]
    intro n hn
    simp only [decide_eq_true_eq]
    exact Nat.not_lt.mpr (hrep n hn)
  have hpagef : (pySplitlines s).filter (fun ln => !pageNumberMatch (pyStrip ln))
      = pySplitlines s :=
    List.filter_eq_self.mpr (fun ln hln => by simp [hpage ln hln])
  have hfootf : (pySplitlines s).filter
      (fun ln => !(footnoteLineMatch (pyStrip ln) && decide ((pyStrip ln).length ≤ 200)))
      = pySplitlines s :=
    List.filter_eq_self.mpr (fun ln hln => by
      have hno := hfoot ln hln
      by_cases hm : footnoteLineMatch (pyStrip ln) = true
      · have h2 : ¬ (pyStrip ln).length ≤ 200 := fun hl => hno ⟨hm, hl⟩
        simp [hm, h2]
      · simp only [Bool.not_eq_true] at hm
        simp [hm])
  have hmain : filter_text defaultContentFilter s
      = later_stages defaultContentFilter (frontmatter_stage defaultContentFilter s) := by
    simp only [filter_text, hne, Bool.false_eq_true, if_false]
  rw [hmain, hstage]
  simp only [later_stages]
  rw [if_pos hskh]
  rw [show defaultContentFilter.repeat_threshold = 3 from rfl, hrem]
  rw [if_pos hskp, hpagef]
  rw [if_pos hskn]
  rw [hjoin, hinl, hfootf, hjoin]

/-- Witness for C7: a clean three-line text opening with "Chapter 1" passes
    through `filter_text` unchanged. -/
theorem filter_text_clean_identity_corrected_witness :
    filter_text defaultContentFilter
      (("Chapter 1\nIt was a dark and stormy night.\nThe end.").toList) =
      ("Chapter 1\nIt was a dark and stormy night.\nThe end.").toList ∧
    filter_text defaultContentFilter [] = [] :=
  filter_text_clean_identity_corrected
    (("Chapter 1\nIt was a dark and stormy night.\nThe end.").toList)
    (by decide) (by decide) (by decide) (by decide) (by decide) (by decide) (by decide)

/-- C7 counterexample: a clean single-line body text without a chapter marker
    is not a fixed point — the frontmatter fallback drops
    `int(len(text) * 0.05)` characters from it, so `filter_text` is not the
    identity on all clean input. -/
theorem filter_text_idempotence_counterexample :
    find_content_start (pySplitlines
      (("A clean line of body text with no markers at all.").toList)) = none ∧
    (pySplitlines (("A clean line of body text with no markers at all.").toList)).length
      = 1 ∧
    filter_text defaultContentFilter
      (("A clean line of body text with no markers at all.").toList) ≠
      ("A clean line of body text with no markers at all.").toList := by
  refine ⟨by decide, by decide, ?_⟩
  have hlen : (("A clean line of body text with no markers at all.").toList).length = 49 := by
    decide
  have hc : charSkipCount defaultContentFilter
      (("A clean line of body text with no markers at all.").toList) = 2 := by
    unfold charSkipCount
    rw [hlen]
    norm_num [defaultContentFilter]
    decide
  have hstage : frontmatter_stage defaultContentFilter
      (("A clean line of body text with no markers at all.").toList) =
      pySplitlines ((("A clean line of body text with no markers at all.").toList).drop 2) := by
    have hskf : defaultContentFilter.skip_frontmatter = true := rfl
    simp only [frontmatter_stage]
    rw [if_pos hskf]
    rw [show find_content_start (pySplitlines
      (("A clean line of body text with no markers at all.").toList)) = none from by decide]
    rw [hc]
  have hmain : filter_text defaultContentFilter
      (("A clean line of body text with no markers at all.").toList)
      = later_stages defaultContentFilter (frontmatter_stage defaultContentFilter
          (("A clean line of body text with no markers at all.").toList)) := by
    simp only [filter_text]
    rw [if_neg (by decide)]
  rw [hmain, hstage]
  decide
